import Mathlib

/-!
Verification development for the ingestion-and-aggregation engine of
MTA_Alerts (`src/datacache.js`).  The repository ships two revisions of
`datacache.js`; their GTFS-feed ingestion logic is identical, and the
second revision adds the web-scrape branch (`sourceIsGtfsApi = false`).
Both branches are embedded here.

Modelling conventions:
  * timestamps and millisecond durations are `Int` (JS numbers used as
    integral epoch milliseconds);
  * the mutable `lineData` object is a function `String → Option LineRecord`,
    mutated by explicit functional update (`setLine`);
  * promise resolution/rejection is `Except`/`Option` at the point where the
    code observes it; the protobuf decoders are external, so a fetched feed
    body is abstracted as either a decoded `FeedMessage` or the bare `{}`
    object that `makeRequest` resolves when both decoders throw;
  * a JS `TypeError` escaping the `.then` callback (and landing in the
    trailing `.catch`) is modelled with `Except`, the error value carrying
    the `lineData` state already mutated when the throw happened, since the
    real code mutates the shared object in place.
-/

/-- Line status strings `'DELAYED'` / `'NOT DELAYED'` from `datacache.js`. -/
inductive Status where
  | DELAYED
  | NOT_DELAYED
deriving DecidableEq, Repr

/-- Per-line record, as built by `initLineData` and mutated by `refreshData`. -/
structure LineRecord where
  activeTime : Int
  undelayedTime : Int
  lastUpdated : Int
  status : Status
deriving DecidableEq, Repr

/-- `initLineData(time)` from `datacache.js`. -/
def initLineData (time : Int) : LineRecord :=
  { activeTime := 0, undelayedTime := 0, lastUpdated := time, status := Status.NOT_DELAYED }

/-- The `lineData` dictionary: line id → record (absent keys are `none`). -/
def LineData : Type := String → Option LineRecord

/-- Assignment `lineData[l] = lr` as a functional update. -/
def setLine (st : LineData) (l : String) (lr : LineRecord) : LineData :=
  fun x => if x = l then some lr else st x

/-- The fixed `SUBWAY_LINES` enumeration from `datacache.js`. -/
def SUBWAY_LINES : List String :=
  ["1", "2", "3", "4", "5", "6", "7",
   "A", "B", "C", "D", "E", "F", "G", "J", "L", "M", "N", "Q", "R", "W", "Z",
   "SI"]

/-- The store built by the `DataCache` constructor: `lineData = {}` followed by
`SUBWAY_LINES.forEach(l => lineData[l] = initLineData(startTime))`. -/
def initialStore (startTime : Int) : LineData :=
  SUBWAY_LINES.foldl (fun st l => setLine st l (initLineData startTime)) (fun _ => none)

/-- `header_text.translation` node: carries the `.text` the code reads. -/
structure Translation where
  text : String
deriving DecidableEq, Repr

/-- `alert.header_text`; `translation` is checked for truthiness before use. -/
structure HeaderText where
  translation : Option Translation
deriving DecidableEq, Repr

/-- One `informed_entity` element; `route_id` is checked for truthiness
(absent or the empty string are both falsy in JS). -/
structure InformedEntity where
  route_id : Option String
deriving DecidableEq, Repr

/-- The `alert` payload of a feed entity. -/
structure Alert where
  header_text : Option HeaderText
  informed_entity : List InformedEntity
deriving DecidableEq, Repr

/-- One element of `feedMessage.entity`. -/
structure FeedEntity where
  alert : Option Alert
deriving DecidableEq, Repr

/-- A successfully decoded protobuf `FeedMessage`. -/
structure FeedMessage where
  entity : List FeedEntity
deriving DecidableEq, Repr

/-- What `makeRequest` resolves with: a decoded message, or the bare object
`{}` assigned when both protobuf decoders threw (it has no `entity` field). -/
inductive ParseResult where
  | decoded (m : FeedMessage)
  | emptyObj
deriving DecidableEq, Repr

/-- Boolean list-prefix test (anchored regex match over characters). -/
def isPre : List Char → List Char → Bool
  | [], _ => true
  | _ :: _, [] => false
  | a :: as, b :: bs => (a = b) && isPre as bs

/-- Case-insensitively anchored match: the pattern (given lowercase)
against the start of `s`. -/
def matchAtStart (pat : List Char) (s : String) : Bool :=
  isPre pat (s.data.map Char.toLower)

/-- The delay test of `refreshData`:
`alertHeader != '' && alertHeader.search(delaysRegExp) >= 0` with
`delaysRegExp = new RegExp('^delays\b', 'i')`.  In a JavaScript *string*
literal `\b` is the backspace character U+0008, so the compiled regex is
`/^delays\x08/i`: a case-insensitive match of the seven characters
`d e l a y s ⟨backspace⟩` at the start of the header. -/
def classifyHeader (s : String) : Bool :=
  decide (s ≠ "") && matchAtStart "delays\x08".data s

/-- The seen-in-a-delay-alert branch of `refreshData` (feed variant):
`activeTime += currentTime - lastUpdated; lastUpdated = currentTime;
status = 'DELAYED'`. -/
def applyDelayed (now : Int) (lr : LineRecord) : LineRecord :=
  { lr with
    activeTime := lr.activeTime + (now - lr.lastUpdated)
    lastUpdated := now
    status := Status.DELAYED }

/-- The not-seen branch of `refreshData` (feed variant): advance
`activeTime`, credit `undelayedTime` only when the prior status was
`'NOT DELAYED'`, then set status to `'NOT DELAYED'`. -/
def applyUnseen (now : Int) (lr : LineRecord) : LineRecord :=
  let deltaTime := now - lr.lastUpdated
  let r1 := { lr with activeTime := lr.activeTime + deltaTime, lastUpdated := now }
  let r2 :=
    if lr.status = Status.NOT_DELAYED then
      { r1 with undelayedTime := r1.undelayedTime + deltaTime }
    else r1
  { r2 with status := Status.NOT_DELAYED }

/-- The `lineData` mutation for one truthy `route_id` inside a
delay-classified alert: lazily init the record, then apply the seen-delayed
update. -/
def touchRoute (now : Int) (r : String) (st : LineData) : LineData :=
  setLine st r (applyDelayed now ((st r).getD (initLineData now)))

/-- Membership in the `linesSeen` dictionary's key set. -/
def memStr (r : String) : List String → Bool
  | [] => false
  | s :: rest => decide (r = s) || memStr r rest

/-- The assignment `linesSeen[r] = true` on the dictionary's key set
(idempotent, like setting a key of a JS object). -/
def seenInsert (r : String) (seen : List String) : List String :=
  if memStr r seen then seen else r :: seen

/-- Processing one `informed_entity`: skip falsy `route_id` (absent or
empty), else mark `linesSeen[route_id] = true` and mutate `lineData`. -/
def processInformedEntity (now : Int) (p : LineData × List String)
    (ie : InformedEntity) : LineData × List String :=
  match ie.route_id with
  | none => p
  | some r => if r = "" then p else (touchRoute now r p.1, seenInsert r p.2)

/-- Processing one `feedEntity`: the three truthiness guards on
`alert`, `alert.header_text`, `alert.header_text.translation`, then the
delay-header test, then the `informed_entity` loop. -/
def processEntity (now : Int) (p : LineData × List String)
    (e : FeedEntity) : LineData × List String :=
  match e.alert with
  | none => p
  | some al =>
    match al.header_text with
    | none => p
    | some ht =>
      match ht.translation with
      | none => p
      | some tr =>
        if classifyHeader tr.text then
          al.informed_entity.foldl (processInformedEntity now) p
        else p

/-- Processing one decoded feed: `feedMessage.entity.forEach(...)`. -/
def processMessage (now : Int) (p : LineData × List String)
    (m : FeedMessage) : LineData × List String :=
  m.entity.foldl (processEntity now) p

/-- The `results.forEach` loop.  A `ParseResult.emptyObj` result is the bare
`{}`: reading `.entity` of it yields `undefined`, so `.forEach` throws a
`TypeError`; the error value carries the `lineData`/`linesSeen` state already
mutated before the throw (the shared object keeps those mutations). -/
def runFeeds (now : Int) :
    List ParseResult → LineData × List String →
    Except (LineData × List String) (LineData × List String)
  | [], p => Except.ok p
  | ParseResult.decoded m :: rest, p => runFeeds now rest (processMessage now p m)
  | ParseResult.emptyObj :: _, p => Except.error p

/-- The `SUBWAY_LINES.forEach` recovery loop over lines not seen in any
delay alert.  Reading `lineData[lineId].lastUpdated` of an absent record
would throw, modelled as `Except.error` carrying the state so far (the
constructor creates every enumerated line, so this branch is unreachable
from reachable states). -/
def updateUnseenE (now : Int) (seen : List String) :
    List String → LineData → Except LineData LineData
  | [], st => Except.ok st
  | l :: rest, st =>
    if memStr l seen then updateUnseenE now seen rest st
    else
      match st l with
      | none => Except.error st
      | some lr => updateUnseenE now seen rest (setLine st l (applyUnseen now lr))

/-- The recovery loop's effect on the store: on a throw the `.catch` keeps
the mutations made before the throw. -/
def unseenPhase (now : Int) (seen : List String) (st : LineData) : LineData :=
  match updateUnseenE now seen SUBWAY_LINES st with
  | Except.error st2 => st2
  | Except.ok st2 => st2

/-- The body of the feed variant's `.then` continuation, run when
`Promise.all` resolved with `results`.  Any modelled throw lands in the
trailing `.catch(() => {})`, which keeps the mutations made so far. -/
def feedApply (now : Int) (rs : List ParseResult) (store : LineData) : LineData :=
  match runFeeds now rs (store, []) with
  | Except.error p => p.1
  | Except.ok p => unseenPhase now p.2 p.1

/-- `Promise.all` over the per-feed request outcomes: resolves with the list
of results iff every request resolved, rejects as soon as any rejected. -/
def promiseAll : List (Except String ParseResult) → Option (List ParseResult)
  | [] => some []
  | Except.ok a :: rest => (promiseAll rest).map (fun l => a :: l)
  | Except.error _ :: _ => none

/-- One feed-variant `refreshData` cycle, given the joined fetch outcome:
`none` is a rejected `Promise.all` (the `.catch` does nothing), `some rs`
runs the `.then` continuation at `currentTime = now`. -/
def feedRefresh (now : Int) (fetch : Option (List ParseResult))
    (store : LineData) : LineData :=
  match fetch with
  | none => store
  | some rs => feedApply now rs store

/-- The `lineStatus[line]` vocabulary produced by `scrapePage`. -/
inductive Judgment where
  | delayed
  | undelayed
deriving DecidableEq, Repr

/-- The scrape variant's per-line update, in source order: advance
`activeTime` and `lastUpdated`; flip to `'DELAYED'` on an explicit
`'delayed'` judgment from `'NOT DELAYED'`; on an explicit `'undelayed'`
judgment credit `undelayedTime` and flip back from `'DELAYED'`. -/
def applyScrape (now : Int) (j : Judgment) (lr : LineRecord) : LineRecord :=
  let deltaTime := now - lr.lastUpdated
  let r1 := { lr with activeTime := lr.activeTime + deltaTime, lastUpdated := now }
  let r2 :=
    if r1.status = Status.NOT_DELAYED ∧ j = Judgment.delayed then
      { r1 with status := Status.DELAYED }
    else r1
  if j = Judgment.undelayed then
    let r3 := { r2 with undelayedTime := r2.undelayedTime + deltaTime }
    if r3.status = Status.DELAYED then { r3 with status := Status.NOT_DELAYED } else r3
  else r2

/-- The scrape branch of `refreshData`: `Object.keys(lineStatus).forEach`,
updating exactly the lines present in the scraped snapshot (association
list in key order, keys distinct). -/
def scrapeApply (now : Int) (snap : List (String × Judgment))
    (store : LineData) : LineData :=
  snap.foldl
    (fun st pr => setLine st pr.1 (applyScrape now pr.2 ((st pr.1).getD (initLineData now))))
    store

/-- One scrape-variant `refreshData` cycle: `none` is a rejected
`scrapePage()` promise (the `.catch` does nothing). -/
def scrapeRefresh (now : Int) (fetch : Option (List (String × Judgment)))
    (store : LineData) : LineData :=
  match fetch with
  | none => store
  | some snap => scrapeApply now snap store

/-- Result vocabulary of `DataCache.getStatus`. -/
inductive StatusResult where
  | notFound
  | current (s : Status)
deriving DecidableEq, Repr

/-- Result vocabulary of `DataCache.getUptime`; the numeric branch carries
the exact fraction that `toFixed(3)` then formats. -/
inductive UptimeResult where
  | notFound
  | noBaseline
  | fraction (q : ℚ)
deriving DecidableEq, Repr

/-- `DataCache.getStatus(line)`. -/
def getStatus (st : LineData) (line : String) : StatusResult :=
  match st line with
  | none => StatusResult.notFound
  | some lr => StatusResult.current lr.status

/-- `DataCache.getUptime(line)` at query time `now`. -/
def getUptime (st : LineData) (now : Int) (line : String) : UptimeResult :=
  match st line with
  | none => UptimeResult.notFound
  | some lr =>
    let deltaTime := now - lr.lastUpdated
    let activeTime := lr.activeTime + deltaTime
    if activeTime < 1000 then UptimeResult.noBaseline
    else
      let undelayedTime :=
        lr.undelayedTime + (if lr.status = Status.NOT_DELAYED then deltaTime else 0)
      UptimeResult.fraction ((undelayedTime : ℚ) / (activeTime : ℚ))

/-- States of the Line State Store reachable from the constructor by any
sequence of cycles (either variant, successful or failed fetch) with
non-decreasing wall-clock time.  Queries are pure reads and do not change
the store. -/
inductive Reach : Int → LineData → Prop where
  | init (t0 : Int) : Reach t0 (initialStore t0)
  | feedStep (t now : Int) (store : LineData) (fetch : Option (List ParseResult)) :
      Reach t store → t ≤ now → Reach now (feedRefresh now fetch store)
  | scrapeStep (t now : Int) (store : LineData) (fetch : Option (List (String × Judgment))) :
      Reach t store → t ≤ now → Reach now (scrapeRefresh now fetch store)

/-- Record-level invariant relative to the current time. -/
def GoodRec (now : Int) (lr : LineRecord) : Prop :=
  0 ≤ lr.undelayedTime ∧ lr.undelayedTime ≤ lr.activeTime ∧ lr.lastUpdated ≤ now

/-- Store-level invariant. -/
def Good (now : Int) (st : LineData) : Prop :=
  ∀ l lr, st l = some lr → GoodRec now lr

/-- Evolution of a store across one mutation phase: every existing record
survives and its `activeTime` and `lastUpdated` do not decrease. -/
def Mono (st st' : LineData) : Prop :=
  ∀ l lr, st l = some lr →
    ∃ lr', st' l = some lr' ∧ lr.activeTime ≤ lr'.activeTime ∧
      lr.lastUpdated ≤ lr'.lastUpdated

/-- Invariant plus evolution, the property threaded through the folds. -/
def Ok (now : Int) (st st' : LineData) : Prop := Good now st' ∧ Mono st st'

/-- Test fixture: a decoded feed message carrying one alert whose header
matches the code's compiled regex `/^delays\x08/i` and which informs
route `"2"`. -/
def msgD2 : FeedMessage :=
  ⟨[⟨some ⟨some ⟨some ⟨"Delays\x08 in both directions"⟩⟩, [⟨some "2"⟩]⟩⟩]⟩

/-- Test fixture: a store holding one line `"G"` with 2000 of 5000
milliseconds undelayed, last updated at time 5000. -/
def stG : LineData :=
  setLine (fun _ => none) "G" ⟨5000, 2000, 5000, Status.DELAYED⟩

theorem setLine_same (st : LineData) (l : String) (lr : LineRecord) :
    setLine st l lr l = some lr := by
  simp [setLine]

theorem setLine_other (st : LineData) (l : String) (lr : LineRecord)
    (x : String) (h : x ≠ l) : setLine st l lr x = st x := by
  simp [setLine, h]

theorem mono_refl (st : LineData) : Mono st st := by
  intro l lr h
  exact ⟨lr, h, le_refl _, le_refl _⟩

theorem mono_trans {a b c : LineData} (h1 : Mono a b) (h2 : Mono b c) : Mono a c := by
  intro l lr h
  obtain ⟨lr1, hb, ha1, hl1⟩ := h1 l lr h
  obtain ⟨lr2, hc, ha2, hl2⟩ := h2 l lr1 hb
  exact ⟨lr2, hc, le_trans ha1 ha2, le_trans hl1 hl2⟩

theorem ok_refl {now : Int} {st : LineData} (h : Good now st) : Ok now st st :=
  ⟨h, mono_refl st⟩

theorem ok_trans {now : Int} {a b c : LineData} (h1 : Ok now a b) (h2 : Ok now b c) :
    Ok now a c :=
  ⟨h2.1, mono_trans h1.2 h2.2⟩

theorem goodRec_init (t : Int) : GoodRec t (initLineData t) := by
  simp [GoodRec, initLineData]

theorem applyDelayed_evolve {now : Int} {lr : LineRecord} (h : GoodRec now lr) :
    GoodRec now (applyDelayed now lr) ∧
      lr.activeTime ≤ (applyDelayed now lr).activeTime ∧
      lr.lastUpdated ≤ (applyDelayed now lr).lastUpdated := by
  obtain ⟨h1, h2, h3⟩ := h
  simp only [GoodRec, applyDelayed]
  refine ⟨⟨h1, ?_, le_refl _⟩, ?_, h3⟩ <;> omega

theorem applyUnseen_evolve {now : Int} {lr : LineRecord} (h : GoodRec now lr) :
    GoodRec now (applyUnseen now lr) ∧
      lr.activeTime ≤ (applyUnseen now lr).activeTime ∧
      lr.lastUpdated ≤ (applyUnseen now lr).lastUpdated := by
  obtain ⟨h1, h2, h3⟩ := h
  simp only [GoodRec, applyUnseen]
  split <;> simp_all <;> omega

theorem applyScrape_evolve {now : Int} {j : Judgment} {lr : LineRecord}
    (h : GoodRec now lr) :
    GoodRec now (applyScrape now j lr) ∧
      lr.activeTime ≤ (applyScrape now j lr).activeTime ∧
      lr.lastUpdated ≤ (applyScrape now j lr).lastUpdated := by
  obtain ⟨h1, h2, h3⟩ := h
  simp only [GoodRec, applyScrape]
  cases j <;> cases hs : lr.status <;> simp_all <;> omega

theorem setLine_ok {now : Int} {st : LineData} {l : String}
    (f : LineRecord → LineRecord)
    (hf : ∀ lr, GoodRec now lr →
      GoodRec now (f lr) ∧ lr.activeTime ≤ (f lr).activeTime ∧
        lr.lastUpdated ≤ (f lr).lastUpdated)
    (h : Good now st) :
    Ok now st (setLine st l (f ((st l).getD (initLineData now)))) := by
  have hrec0 : GoodRec now ((st l).getD (initLineData now)) := by
    cases h0 : st l with
    | none => simpa using goodRec_init now
    | some lr0 => simpa using h l lr0 h0
  constructor
  · intro x lrx hx
    by_cases hxl : x = l
    · subst hxl
      rw [setLine_same] at hx
      cases hx
      exact (hf _ hrec0).1
    · rw [setLine_other _ _ _ _ hxl] at hx
      exact h x lrx hx
  · intro x lrx hx
    by_cases hxl : x = l
    · subst hxl
      refine ⟨f ((st x).getD (initLineData now)), setLine_same _ _ _, ?_, ?_⟩
      · have := (hf _ hrec0).2.1
        simpa [hx] using this
      · have := (hf _ hrec0).2.2
        simpa [hx] using this
    · exact ⟨lrx, by rw [setLine_other _ _ _ _ hxl]; exact hx, le_refl _, le_refl _⟩

theorem touchRoute_ok {now : Int} {st : LineData} {r : String} (h : Good now st) :
    Ok now st (touchRoute now r st) :=
  setLine_ok (applyDelayed now) (fun _ hlr => applyDelayed_evolve hlr) h

theorem processInformedEntity_ok {now : Int} {p : LineData × List String}
    {ie : InformedEntity} (h : Good now p.1) :
    Ok now p.1 (processInformedEntity now p ie).1 := by
  cases hie : ie.route_id with
  | none => simp only [processInformedEntity, hie]; exact ok_refl h
  | some r =>
    simp only [processInformedEntity, hie]
    split
    · exact ok_refl h
    · exact touchRoute_ok h

theorem foldl_informed_ok {now : Int} :
    ∀ (ies : List InformedEntity) (p : LineData × List String), Good now p.1 →
      Ok now p.1 (ies.foldl (processInformedEntity now) p).1 := by
  intro ies
  induction ies with
  | nil => intro p h; exact ok_refl h
  | cons ie rest ih =>
    intro p h
    have h1 := @processInformedEntity_ok now p ie h
    have h2 := ih (processInformedEntity now p ie) h1.1
    simpa using ok_trans h1 h2

theorem processEntity_ok {now : Int} {p : LineData × List String} {e : FeedEntity}
    (h : Good now p.1) : Ok now p.1 (processEntity now p e).1 := by
  cases ha : e.alert with
  | none => simp only [processEntity, ha]; exact ok_refl h
  | some al =>
    cases hh : al.header_text with
    | none => simp only [processEntity, ha, hh]; exact ok_refl h
    | some ht =>
      cases htr : ht.translation with
      | none => simp only [processEntity, ha, hh, htr]; exact ok_refl h
      | some tr =>
        simp only [processEntity, ha, hh, htr]
        split
        · exact foldl_informed_ok al.informed_entity p h
        · exact ok_refl h

theorem processMessage_ok {now : Int} :
    ∀ (m : FeedMessage) (p : LineData × List String), Good now p.1 →
      Ok now p.1 (processMessage now p m).1 := by
  intro m
  show ∀ p, Good now p.1 → Ok now p.1 (m.entity.foldl (processEntity now) p).1
  induction m.entity with
  | nil => intro p h; exact ok_refl h
  | cons e rest ih =>
    intro p h
    have h1 := processEntity_ok (e := e) h
    have h2 := ih (processEntity now p e) h1.1
    simpa using ok_trans h1 h2

theorem runFeeds_ok {now : Int} :
    ∀ (rs : List ParseResult) (p : LineData × List String), Good now p.1 →
      (∀ q, runFeeds now rs p = Except.ok q → Ok now p.1 q.1) ∧
      (∀ q, runFeeds now rs p = Except.error q → Ok now p.1 q.1) := by
  intro rs
  induction rs with
  | nil =>
    intro p h
    constructor
    · intro q hq
      simp only [runFeeds] at hq
      cases hq
      exact ok_refl h
    · intro q hq
      simp [runFeeds] at hq
  | cons r rest ih =>
    intro p h
    cases r with
    | decoded m =>
      have h1 := processMessage_ok m p h
      have h2 := ih (processMessage now p m) h1.1
      constructor
      · intro q hq
        simp only [runFeeds] at hq
        exact ok_trans h1 (h2.1 q hq)
      · intro q hq
        simp only [runFeeds] at hq
        exact ok_trans h1 (h2.2 q hq)
    | emptyObj =>
      constructor
      · intro q hq
        simp [runFeeds] at hq
      · intro q hq
        simp only [runFeeds] at hq
        cases hq
        exact ok_refl h

theorem updateUnseenE_ok {now : Int} {seen : List String} :
    ∀ (ls : List String) (st : LineData), Good now st →
      (∀ st', updateUnseenE now seen ls st = Except.ok st' → Ok now st st') ∧
      (∀ st', updateUnseenE now seen ls st = Except.error st' → Ok now st st') := by
  intro ls
  induction ls with
  | nil =>
    intro st h
    constructor
    · intro st' hq
      simp only [updateUnseenE] at hq
      cases hq
      exact ok_refl h
    · intro st' hq
      simp [updateUnseenE] at hq
  | cons l rest ih =>
    intro st h
    by_cases hm : memStr l seen = true
    · simpa only [updateUnseenE, if_pos hm] using ih st h
    · cases hl : st l with
      | none =>
        constructor
        · intro st' hq
          simp [updateUnseenE, hm, hl] at hq
        · intro st' hq
          simp only [updateUnseenE, if_neg hm, hl] at hq
          cases hq
          exact ok_refl h
      | some lr =>
        have hstep : Ok now st (setLine st l (applyUnseen now lr)) := by
          have := @setLine_ok now st l (applyUnseen now)
            (fun _ hlr => applyUnseen_evolve hlr) h
          simpa [hl] using this
        have hrest := ih (setLine st l (applyUnseen now lr)) hstep.1
        constructor
        · intro st' hq
          simp only [updateUnseenE, if_neg hm, hl] at hq
          exact ok_trans hstep (hrest.1 st' hq)
        · intro st' hq
          simp only [updateUnseenE, if_neg hm, hl] at hq
          exact ok_trans hstep (hrest.2 st' hq)

theorem unseenPhase_ok {now : Int} {seen : List String} {st : LineData}
    (h : Good now st) : Ok now st (unseenPhase now seen st) := by
  unfold unseenPhase
  cases hu : updateUnseenE now seen SUBWAY_LINES st with
  | error st2 => exact (updateUnseenE_ok SUBWAY_LINES st h).2 st2 hu
  | ok st2 => exact (updateUnseenE_ok SUBWAY_LINES st h).1 st2 hu

theorem feedApply_ok {now : Int} {rs : List ParseResult} {store : LineData}
    (h : Good now store) : Ok now store (feedApply now rs store) := by
  unfold feedApply
  have hp : Good now (Prod.fst (store, ([] : List String))) := h
  cases hr : runFeeds now rs (store, []) with
  | error p => exact (runFeeds_ok rs (store, []) hp).2 p hr
  | ok p =>
    have h1 : Ok now store p.1 := (runFeeds_ok rs (store, []) hp).1 p hr
    exact ok_trans h1 (unseenPhase_ok h1.1)

theorem scrapeApply_ok {now : Int} :
    ∀ (snap : List (String × Judgment)) (store : LineData), Good now store →
      Ok now store (scrapeApply now snap store) := by
  intro snap
  induction snap with
  | nil => intro store h; exact ok_refl h
  | cons pr rest ih =>
    intro store h
    have hstep : Ok now store
        (setLine store pr.1 (applyScrape now pr.2 ((store pr.1).getD (initLineData now)))) :=
      setLine_ok (applyScrape now pr.2) (fun _ hlr => applyScrape_evolve hlr) h
    have hrest := ih _ hstep.1
    simpa [scrapeApply] using ok_trans hstep hrest

theorem good_weaken {t now : Int} {st : LineData} (h : Good t st) (hle : t ≤ now) :
    Good now st := by
  intro l lr hl
  obtain ⟨h1, h2, h3⟩ := h l lr hl
  exact ⟨h1, h2, le_trans h3 hle⟩

theorem good_initialStore (t : Int) : Good t (initialStore t) := by
  have hbase : Good t (fun _ => none) := by intro l lr h; cases h
  have hstep : ∀ (ls : List String) (st : LineData), Good t st →
      Good t (ls.foldl (fun s l => setLine s l (initLineData t)) st) := by
    intro ls
    induction ls with
    | nil => intro st h; exact h
    | cons l rest ih =>
      intro st h
      apply ih
      intro x lrx hx
      simp only [setLine] at hx
      split at hx
      · cases hx
        exact goodRec_init t
      · exact h x lrx hx
  exact hstep SUBWAY_LINES _ hbase

theorem feedRefresh_ok {now : Int} {fetch : Option (List ParseResult)}
    {store : LineData} (h : Good now store) :
    Ok now store (feedRefresh now fetch store) := by
  cases fetch with
  | none => exact ok_refl h
  | some rs => exact feedApply_ok h

theorem scrapeRefresh_ok {now : Int} {fetch : Option (List (String × Judgment))}
    {store : LineData} (h : Good now store) :
    Ok now store (scrapeRefresh now fetch store) := by
  cases fetch with
  | none => exact ok_refl h
  | some snap => exact scrapeApply_ok snap store h

theorem reach_good {t : Int} {store : LineData} (h : Reach t store) : Good t store := by
  induction h with
  | init t0 => exact good_initialStore t0
  | feedStep t now store fetch _ hle ih =>
    exact (feedRefresh_ok (good_weaken ih hle)).1
  | scrapeStep t now store fetch _ hle ih =>
    exact (scrapeRefresh_ok (good_weaken ih hle)).1

theorem promiseAll_eq_none {e : String} :
    ∀ outcomes : List (Except String ParseResult), Except.error e ∈ outcomes →
      promiseAll outcomes = none := by
  intro outcomes
  induction outcomes with
  | nil => intro h; cases h
  | cons o rest ih =>
    intro h
    cases o with
    | error s => rfl
    | ok a =>
      have hr : Except.error e ∈ rest := by
        rcases List.mem_cons.mp h with h1 | h2
        · simp at h1
        · exact h2
      simp [promiseAll, ih hr]

/-- C1 (counterexample): a concrete cycle with two configured feeds, the
first rejecting with HTTP 500 and the second resolving with a delay alert
for line `"2"`.  `Promise.all` rejects, the `.catch` swallows it, and the
whole store is left untouched — line `"2"` stays `NOT_DELAYED` — whereas
applying the successful feed's results alone would have marked `"2"`
`DELAYED`.  So the successful feed's alerts are NOT applied, refuting the
claim. -/
theorem c1_counterexample :
    promiseAll [Except.error "statusCode=500", Except.ok (ParseResult.decoded msgD2)]
        = none ∧
    feedRefresh 1000
        (promiseAll [Except.error "statusCode=500", Except.ok (ParseResult.decoded msgD2)])
        (initialStore 0) = initialStore 0 ∧
    ((feedApply 1000 [ParseResult.decoded msgD2] (initialStore 0)) "2").map
        LineRecord.status = some Status.DELAYED ∧
    ((initialStore 0) "2").map LineRecord.status = some Status.NOT_DELAYED := by
  refine ⟨rfl, rfl, by decide, by decide⟩

/-- C1 (amended): in the feed variant the per-feed requests are joined with
`Promise.all`, which rejects as soon as any feed's request fails; the
`.catch` then drops the cycle entirely, so a cycle with any failed feed is a
no-op on the Line State Store, and alerts are applied only in cycles in
which every feed request succeeded. -/
theorem c1_anyFailureAborts (outcomes : List (Except String ParseResult))
    (now : Int) (store : LineData) (h : ∃ e, Except.error e ∈ outcomes) :
    feedRefresh now (promiseAll outcomes) store = store := by
  obtain ⟨e, he⟩ := h
  rw [promiseAll_eq_none outcomes he]
  rfl

/-- C1 witness: a one-feed cycle whose single request failed is a no-op. -/
theorem c1_witness :
    feedRefresh 3 (promiseAll [Except.error "statusCode=500"]) (initialStore 0)
      = initialStore 0 :=
  c1_anyFailureAborts [Except.error "statusCode=500"] 3 (initialStore 0)
    ⟨"statusCode=500", List.mem_singleton.mpr rfl⟩

/-- C2: the code's delay test never fires on a real header.  The regex is
built from the string literal `'^delays\b'`, in which `\b` is the backspace
character U+0008 (not a word boundary), so `classifyHeader` demands a
literal backspace after "delays": the ordinary header "Delays in both
directions" is not classified although it begins with the case-insensitive
token "delays", while only a header containing an actual backspace is. -/
theorem c2_backspaceBug :
    classifyHeader "Delays in both directions" = false ∧
    matchAtStart "delays".data "Delays in both directions" = true ∧
    classifyHeader "Delays\x08 in both directions" = true := by
  refine ⟨by decide, by decide, by decide⟩

/-- C3: a feed payload rejected by both decoders resolves as the bare `{}`,
whose missing `entity` field makes the `.then` continuation throw; the
`.catch` swallows the throw, so the cycle is a no-op — unlike a cycle whose
decoded snapshot merely contains no alerts, which advances every tracked
line's accounting (here line `"1"`'s `lastUpdated` moves from 0 to 1000). -/
theorem c3_decodeFailureNoOp :
    feedRefresh 1000 (some [ParseResult.emptyObj]) (initialStore 0) = initialStore 0 ∧
    ((feedRefresh 1000 (some [ParseResult.decoded { entity := [] }]) (initialStore 0)) "1").map
        LineRecord.lastUpdated = some 1000 ∧
    ((initialStore 0) "1").map LineRecord.lastUpdated = some 0 := by
  refine ⟨rfl, by decide, by decide⟩

/-- C4 (counterexample): a line seen delayed this cycle whose prior status
was `NOT_DELAYED`: the code adds nothing to `undelayedTime` (it stays 0),
while the claim demands the elapsed delta (1000) be added because the
status held before the update was `NOT_DELAYED`. -/
theorem c4_counterexample :
    (applyDelayed 1000 ⟨0, 0, 0, Status.NOT_DELAYED⟩).undelayedTime = 0 ∧
    ¬((applyDelayed 1000 ⟨0, 0, 0, Status.NOT_DELAYED⟩).undelayedTime
        = (0 : Int) + (1000 - 0)) := by
  refine ⟨by decide, by decide⟩

/-- C4 (amended): under the feed policy the elapsed delta is credited to
`undelayedTime` iff the prior status was `NOT_DELAYED` AND the line was not
seen in a delay alert this cycle; a seen-delayed line gets the delta added
to `activeTime` only, its `undelayedTime` unchanged whatever the prior
status.  The new status is `DELAYED` iff the line was seen delayed. -/
theorem c4_feedPolicyAccounting (now : Int) (lr : LineRecord) :
    (applyDelayed now lr).activeTime = lr.activeTime + (now - lr.lastUpdated) ∧
    (applyDelayed now lr).undelayedTime = lr.undelayedTime ∧
    (applyDelayed now lr).lastUpdated = now ∧
    (applyDelayed now lr).status = Status.DELAYED ∧
    (applyUnseen now lr).activeTime = lr.activeTime + (now - lr.lastUpdated) ∧
    (applyUnseen now lr).undelayedTime = lr.undelayedTime
      + (if lr.status = Status.NOT_DELAYED then now - lr.lastUpdated else 0) ∧
    (applyUnseen now lr).lastUpdated = now ∧
    (applyUnseen now lr).status = Status.NOT_DELAYED := by
  unfold applyDelayed applyUnseen
  cases hs : lr.status <;> simp [hs]

/-- C5 (counterexample): a scrape cycle with an empty snapshot at time 1000
leaves line `"1"`'s `lastUpdated` at 0 — the cycle does NOT advance the
line's time accounting to now, contrary to the claim. -/
theorem c5_counterexample :
    ((scrapeRefresh 1000 (some []) (initialStore 0)) "1").map
        LineRecord.lastUpdated = some 0 ∧
    ¬(((scrapeRefresh 1000 (some []) (initialStore 0)) "1").map
        LineRecord.lastUpdated = some 1000) := by
  refine ⟨by decide, by decide⟩

/-- C5 (amended): the scrape branch iterates only over the lines present in
the scraped snapshot, so a line the snapshot neither judges delayed nor
undelayed keeps its entire record unchanged — `status`, `activeTime`,
`undelayedTime` and `lastUpdated` are all untouched — and a cycle with an
empty snapshot is a no-op on the store. -/
theorem c5_unmentionedUntouched :
    (∀ (now : Int) (store : LineData), scrapeApply now [] store = store) ∧
    (∀ (now : Int) (snap : List (String × Judgment)) (store : LineData) (l : String),
      l ∉ snap.map Prod.fst → (scrapeApply now snap store) l = store l) := by
  constructor
  · intro now store; rfl
  · intro now snap
    induction snap with
    | nil => intro store l h; rfl
    | cons pr rest ih =>
      intro store l h
      simp only [List.map_cons, List.mem_cons] at h
      push_neg at h
      obtain ⟨h1, h2⟩ := h
      have hstep : scrapeApply now (pr :: rest) store
          = scrapeApply now rest
              (setLine store pr.1 (applyScrape now pr.2 ((store pr.1).getD (initLineData now)))) := rfl
      rw [hstep, ih _ l h2]
      exact setLine_other _ _ _ _ h1

/-- C5 witness: an empty snapshot is a no-op, and a snapshot judging only
line `"2"` leaves line `"1"`'s record untouched. -/
theorem c5_witness :
    scrapeApply 1000 [] (initialStore 0) = initialStore 0 ∧
    (scrapeApply 1000 [("2", Judgment.delayed)] (initialStore 0)) "1"
      = (initialStore 0) "1" :=
  ⟨c5_unmentionedUntouched.1 1000 (initialStore 0),
   c5_unmentionedUntouched.2 1000 [("2", Judgment.delayed)] (initialStore 0) "1" (by decide)⟩

/-- C6: at every state reachable from the constructor by any sequence of
cycles (either variant, successful or failed, at non-decreasing times),
every record satisfies `0 ≤ undelayedTime ≤ activeTime`; and across any
further cycle every record survives with a non-decreasing `activeTime`. -/
theorem c6_invariants :
    (∀ t store, Reach t store → ∀ l lr, store l = some lr →
      0 ≤ lr.undelayedTime ∧ lr.undelayedTime ≤ lr.activeTime) ∧
    (∀ t store now, Reach t store → t ≤ now →
      (∀ fetch, Mono store (feedRefresh now fetch store)) ∧
      (∀ fetch, Mono store (scrapeRefresh now fetch store))) := by
  constructor
  · intro t store hr l lr hl
    obtain ⟨h1, h2, _⟩ := reach_good hr l lr hl
    exact ⟨h1, h2⟩
  · intro t store now hr hle
    have hg := good_weaken (reach_good hr) hle
    exact ⟨fun _ => (feedRefresh_ok hg).2, fun _ => (scrapeRefresh_ok hg).2⟩

/-- C6 witness: the invariant instantiated at the freshly constructed store
and line `"1"`. -/
theorem c6_witness :
    0 ≤ (initLineData 0).undelayedTime ∧
    (initLineData 0).undelayedTime ≤ (initLineData 0).activeTime :=
  c6_invariants.1 0 (initialStore 0) (Reach.init 0) "1" (initLineData 0) (by decide)

/-- C7: a cycle whose snapshot fetch failed entirely (rejected
`Promise.all` or rejected `scrapePage`) is the identity on the store, and
across any cycle from a reachable state at a non-decreasing time every
record's `lastUpdated` is non-decreasing. -/
theorem c7_failedCycleNoOp :
    (∀ (now : Int) (store : LineData),
      feedRefresh now none store = store ∧ scrapeRefresh now none store = store) ∧
    (∀ t store now fetchF fetchS l lr, Reach t store → t ≤ now → store l = some lr →
      (∃ lr', feedRefresh now fetchF store l = some lr' ∧
        lr.lastUpdated ≤ lr'.lastUpdated) ∧
      (∃ lr', scrapeRefresh now fetchS store l = some lr' ∧
        lr.lastUpdated ≤ lr'.lastUpdated)) := by
  constructor
  · intro now store; exact ⟨rfl, rfl⟩
  · intro t store now fetchF fetchS l lr hr hle hl
    have hg := good_weaken (reach_good hr) hle
    obtain ⟨lr1, hs1, _, hlast1⟩ := (feedRefresh_ok hg).2 l lr hl
    obtain ⟨lr2, hs2, _, hlast2⟩ := (scrapeRefresh_ok hg).2 l lr hl
    exact ⟨⟨lr1, hs1, hlast1⟩, ⟨lr2, hs2, hlast2⟩⟩

/-- C7 witness: a failed-fetch cycle leaves the fresh store unchanged, and
line `"1"`'s `lastUpdated` does not decrease across a later cycle. -/
theorem c7_witness :
    feedRefresh 5 none (initialStore 0) = initialStore 0 ∧
    (∃ lr', feedRefresh 7 none (initialStore 0) "1" = some lr' ∧
      (initLineData 0).lastUpdated ≤ lr'.lastUpdated) :=
  ⟨(c7_failedCycleNoOp.1 5 (initialStore 0)).1,
   (c7_failedCycleNoOp.2 0 (initialStore 0) 7 none none "1" (initLineData 0)
     (Reach.init 0) (by decide) (by decide)).1⟩

/-- C8: for a line with a record, `getUptime` at query time `now` computes
`liveDelta = now - lastUpdated` and returns the fraction
`(undelayedTime + d) / (activeTime + liveDelta)` with `d = liveDelta` when
the current status is `NOT_DELAYED` and `d = 0` otherwise, except that it
returns the no-baseline indicator when `activeTime + liveDelta < 1000`. -/
theorem c8_getUptime (st : LineData) (now : Int) (line : String)
    (lr : LineRecord) (h : st line = some lr) :
    getUptime st now line =
      (if lr.activeTime + (now - lr.lastUpdated) < 1000 then UptimeResult.noBaseline
       else UptimeResult.fraction
         (((lr.undelayedTime
              + (if lr.status = Status.NOT_DELAYED then now - lr.lastUpdated else 0) : Int) : ℚ)
           / ((lr.activeTime + (now - lr.lastUpdated) : Int) : ℚ))) := by
  simp only [getUptime, h]

/-- C8 witness: line `"G"` with 2000 of 5000 ms undelayed, queried with no
elapsed live delta, reports the fraction 2000/5000. -/
theorem c8_witness :
    getUptime stG 5000 "G" = UptimeResult.fraction ((2000 : ℚ) / 5000) := by
  have h := c8_getUptime stG 5000 "G" ⟨5000, 2000, 5000, Status.DELAYED⟩ (by decide)
  rw [h]
  norm_num

/-- C9: querying a line with no record in the store returns the
not-found indicator from both `getStatus` and `getUptime`; both queries
are pure reads of the store and create nothing. -/
theorem c9_unknownLine (st : LineData) (now : Int) (line : String)
    (h : st line = none) :
    getStatus st line = StatusResult.notFound ∧
    getUptime st now line = UptimeResult.notFound := by
  constructor
  · simp [getStatus, h]
  · simp [getUptime, h]

/-- C9 witness: `"ZZ"`, never in the enumeration, yields not-found from
both queries against the freshly constructed store. -/
theorem c9_witness :
    getStatus (initialStore 0) "ZZ" = StatusResult.notFound ∧
    getUptime (initialStore 0) 99 "ZZ" = UptimeResult.notFound :=
  c9_unknownLine (initialStore 0) 99 "ZZ" (by decide)

theorem applyDelayed_idem (now : Int) (lr : LineRecord) :
    applyDelayed now (applyDelayed now lr) = applyDelayed now lr := by
  simp [applyDelayed]

theorem touchRoute_at (now : Int) (r : String) (st : LineData) :
    (touchRoute now r st) r
      = some (applyDelayed now ((st r).getD (initLineData now))) := by
  simp [touchRoute, setLine]

/-- C10: within one feed cycle, the first delay-alert mention of a route
with an existing record adds `now - lastUpdated` to `activeTime`, sets
`lastUpdated = now` and `status = DELAYED` leaving `undelayedTime` alone,
and processing the same route again in the same cycle is the identity on
both the store and the seen set. -/
theorem c10_idempotent (now : Int) (r : String) (st : LineData)
    (lr : LineRecord) (h : st r = some lr) :
    (touchRoute now r st) r
      = some ⟨lr.activeTime + (now - lr.lastUpdated), lr.undelayedTime, now,
          Status.DELAYED⟩ ∧
    ∀ seen, processInformedEntity now
        (processInformedEntity now (st, seen) ⟨some r⟩) ⟨some r⟩
      = processInformedEntity now (st, seen) ⟨some r⟩ := by
  constructor
  · simp [touchRoute, setLine, h, applyDelayed]
  · intro seen
    by_cases hr0 : r = ""
    · simp [processInformedEntity, hr0]
    · have hstore : touchRoute now r (touchRoute now r st) = touchRoute now r st := by
        funext x
        by_cases hx : x = r
        · subst hx
          rw [touchRoute_at, touchRoute_at, Option.getD_some, applyDelayed_idem]
        · simp [touchRoute, setLine, hx]
      have hmem : memStr r (seenInsert r seen) = true := by
        by_cases hm : memStr r seen = true
        · simp [seenInsert, hm]
        · simp [seenInsert, hm, memStr]
      have hseen : seenInsert r (seenInsert r seen) = seenInsert r seen := by
        have hexp : seenInsert r (seenInsert r seen)
            = if memStr r (seenInsert r seen) = true then seenInsert r seen
              else r :: seenInsert r seen := rfl
        rw [hexp, hmem]
        simp
      simp only [processInformedEntity, if_neg hr0]
      rw [hstore, hseen]

/-- C10 witness: line `"1"` of the fresh store, mentioned twice at time 7. -/
theorem c10_witness :
    ((touchRoute 7 "1" (initialStore 0)) "1"
      = some ⟨(initLineData 0).activeTime + (7 - (initLineData 0).lastUpdated),
          (initLineData 0).undelayedTime, 7, Status.DELAYED⟩) ∧
    processInformedEntity 7
        (processInformedEntity 7 (initialStore 0, []) ⟨some "1"⟩) ⟨some "1"⟩
      = processInformedEntity 7 (initialStore 0, []) ⟨some "1"⟩ :=
  ⟨(c10_idempotent 7 "1" (initialStore 0) (initLineData 0) (by decide)).1,
   (c10_idempotent 7 "1" (initialStore 0) (initLineData 0) (by decide)).2 []⟩
